import Mathlib

/-!
Verification of the discovery-engine core against its specification.

The development shallowly embeds the two source files:
  * `src/plugin/cilium.go`  — flow buffer, flow-to-log normalization and
    canonical-policy-to-Cilium-policy synthesis;
  * `src/core/deduplicator.go` — the policy deduplication / lifecycle engine.

Modelling conventions:
  * Go `map[string]string` values become association lists (`StrMap`); map
    indexing returns the Go zero value `""` for a missing key, and
    `cmp.Equal` / `reflect.DeepEqual` on maps becomes the key-set/value
    comparison `mapEqStr` (maps are unordered, so an unordered comparison is
    the faithful semantics).  Nil maps are `Option.none` where the source
    distinguishes nil from non-nil (`MatchLabels != nil`).
  * Go slices become `List`s; a nil slice and an empty slice are both `[]`
    (the source never branches on nil-vs-empty for the slices modelled here,
    it only checks `== nil` on slices that are nonempty once allocated).
  * Go nil-pointer dereference (a runtime panic) is modelled by
    `Except.error ()`; protobuf `GetX()` getters are nil-safe and total.
  * The mutex-guarded global flow buffer becomes explicit state passing:
    the buffer value goes in, the updated buffer value comes out.
  * Functions from the `libs` package of the repository are not under `src/`;
    they are modelled from the spec where used (see their doc comments).
-/

namespace DiscoveryEngine

/-- Go `map[string]string`, as an association list. -/
abbrev StrMap := List (String × String)

/-- Go map indexing `m[k]`: the stored value, or the zero value `""`. -/
def lookupStr (m : StrMap) (k : String) : String :=
  match m.find? (fun kv => kv.1 == k) with
  | some kv => kv.2
  | none => ""

/-- Whether the Go map `m` has the key `k`. -/
def hasKey (m : StrMap) (k : String) : Bool :=
  m.any (fun kv => kv.1 == k)

/-- Go map assignment `m[k] = v`. -/
def setStr (m : StrMap) (k v : String) : StrMap :=
  if hasKey m k then m.map (fun kv => if kv.1 == k then (k, v) else kv)
  else m ++ [(k, v)]

/-- `cmp.Equal` / `reflect.DeepEqual` on `map[string]string`: same key set,
same values (order-independent). -/
def mapEqStr (a b : StrMap) : Bool :=
  a.all (fun kv => hasKey b kv.1 && (lookupStr b kv.1 == kv.2)) &&
  b.all (fun kv => hasKey a kv.1 && (lookupStr a kv.1 == kv.2))

/-- Whether `pat` is a prefix of `s`, over character lists (structural, so
that concrete instances evaluate inside proofs). -/
def charsPrefix : List Char → List Char → Bool
  | [], _ => true
  | _ :: _, [] => false
  | c :: cs, d :: ds => c == d && charsPrefix cs ds

/-- `strings.HasPrefix`. -/
def goHasPrefix (s pre : String) : Bool :=
  charsPrefix pre.data s.data

/-- Whether `pat` occurs as a substring of `s`, over character lists. -/
def charsContains : List Char → List Char → Bool
  | [], pat => charsPrefix pat []
  | c :: rest, pat => charsPrefix pat (c :: rest) || charsContains rest pat

/-- `strings.Contains`. -/
def strContainsSub (s sub : String) : Bool :=
  charsContains s.data sub.data

/-- `strings.HasSuffix`. -/
def goHasSuffix (s suffix : String) : Bool :=
  charsPrefix suffix.data.reverse s.data.reverse

/-- `strings.TrimSuffix`. -/
def goTrimSuffix (s suffix : String) : String :=
  if goHasSuffix s suffix then ⟨s.data.take (s.data.length - suffix.data.length)⟩
  else s

/-- `strings.ToUpper` (over the ASCII protocol names the source feeds it). -/
def goToUpper (s : String) : String :=
  ⟨s.data.map Char.toUpper⟩

-- ===================================================================== --
-- Flow data model (src/plugin/cilium.go): the cilium.Flow protobuf, with
-- nilable sub-records as Options.
-- ===================================================================== --

/-- `flow.Endpoint` (the fields the source reads). -/
structure Endpoint where
  Namespace : String := ""
  PodName : String := ""
  Labels : List String := []
deriving Repr, DecidableEq

/-- `flow.IP` (the fields the source reads). -/
structure IPrec where
  Source : String := ""
  Destination : String := ""
deriving Repr, DecidableEq

/-- `flow.TCPFlags` (the flags the source reads). -/
structure TCPFlags where
  SYN : Bool := false
  ACK : Bool := false
deriving Repr, DecidableEq

/-- `flow.TCP`. -/
structure TCPrec where
  SourcePort : Nat := 0
  DestinationPort : Nat := 0
  Flags : Option TCPFlags := none
deriving Repr, DecidableEq

/-- `flow.UDP`. -/
structure UDPrec where
  SourcePort : Nat := 0
  DestinationPort : Nat := 0
deriving Repr, DecidableEq

/-- `flow.ICMPv4`. -/
structure ICMPv4rec where
  «Type» : Nat := 0
  Code : Nat := 0
deriving Repr, DecidableEq

/-- `flow.Layer4`: the protocol oneof, as nilable variants (`GetTCP()` etc.
return nil when another variant, or none, is set). -/
structure Layer4 where
  TCP : Option TCPrec := none
  UDP : Option UDPrec := none
  ICMPv4 : Option ICMPv4rec := none
deriving Repr, DecidableEq

/-- `flow.HTTP` (the fields the source reads). -/
structure HTTPrec where
  Method : String := ""
  Url : String := ""
deriving Repr, DecidableEq

/-- `flow.DNS` (the fields the source reads). -/
structure DNSrec where
  Query : String := ""
  Ips : List String := []
deriving Repr, DecidableEq

/-- `flow.Layer7`: `GetType()` is 1 for REQUEST, 2 for RESPONSE. -/
structure Layer7 where
  «Type» : Nat := 0
  Http : Option HTTPrec := none
  Dns : Option DNSrec := none
deriving Repr, DecidableEq

/-- `cilium.Flow` (the fields the source reads).  Verdict and
TrafficDirection carry their protobuf enum numbers
(`VERDICT_UNKNOWN`=0, `FORWARDED`=1, `DROPPED`=2, `ERROR`=3;
direction `UNKNOWN`=0, `INGRESS`=1, `EGRESS`=2).  The `Time` field is read
only by logging statements and is omitted. -/
structure CiliumFlow where
  Verdict : Nat := 0
  DropReason : Nat := 0
  TrafficDirection : Nat := 0
  Source : Option Endpoint := none
  Destination : Option Endpoint := none
  IP : Option IPrec := none
  L4 : Option Layer4 := none
  L7 : Option Layer7 := none
deriving Repr, DecidableEq

/-- `cilium.Verdict_DROPPED`. -/
def Verdict_DROPPED : Nat := 2

/-- `types.KnoxNetworkLog` (the fields the source writes). -/
structure KnoxNetworkLog where
  FlowID : Nat := 0
  ClusterName : String := ""
  Action : String := ""
  Direction : String := ""
  SrcNamespace : String := ""
  DstNamespace : String := ""
  SrcPodName : String := ""
  DstPodName : String := ""
  SrcIP : String := ""
  DstIP : String := ""
  Protocol : Nat := 0
  SrcPort : Int := 0
  DstPort : Int := 0
  SynFlag : Bool := false
  HTTPMethod : String := ""
  HTTPPath : String := ""
  DNSRes : String := ""
  DNSResIPs : List String := []
deriving Repr, DecidableEq

instance : Inhabited KnoxNetworkLog := ⟨{}⟩

-- ===================================================================== --
-- Helper functions of the flow normalizer (src/plugin/cilium.go)
-- ===================================================================== --

/-- `isSynFlagOnly`: SYN set and ACK unset (nil flags give false). -/
def isSynFlagOnly (tcp : TCPrec) : Bool :=
  match tcp.Flags with
  | some flags => flags.SYN && !flags.ACK
  | none => false

/-- `getL4Ports`: ports (or ICMP type/code) by populated variant, else (-1,-1). -/
def getL4Ports (l4 : Layer4) : Int × Int :=
  match l4.TCP with
  | some tcp => ((tcp.SourcePort : Int), (tcp.DestinationPort : Int))
  | none =>
    match l4.UDP with
    | some udp => ((udp.SourcePort : Int), (udp.DestinationPort : Int))
    | none =>
      match l4.ICMPv4 with
      | some icmp => ((icmp.«Type» : Int), (icmp.Code : Int))
      | none => (-1, -1)

/-- `getProtocol`: 6=TCP, 17=UDP, 1=ICMPv4, 0=unknown. -/
def getProtocol (l4 : Layer4) : Nat :=
  match l4.TCP with
  | some _ => 6
  | none =>
    match l4.UDP with
    | some _ => 17
    | none =>
      match l4.ICMPv4 with
      | some _ => 1
      | none => 0

/-- `getReservedLabelIfExist`: the first label with the "reserved:" prefix. -/
def getReservedLabelIfExist (labels : List String) : String :=
  match labels.find? (fun label => goHasPrefix label "reserved:") with
  | some label => label
  | none => ""

/-- The protobuf `TrafficDirection.String()` (unknown numbers print as
their decimal form). -/
def trafficDirectionString (d : Nat) : String :=
  if d = 0 then "TRAFFIC_DIRECTION_UNKNOWN"
  else if d = 1 then "INGRESS"
  else if d = 2 then "EGRESS"
  else toString d

/-- Model of the Go `url.Parse` call at cilium.go:142: on failure Go
returns a nil URL, so `none` here models the nil result whose `.Path` read
would panic.  The failure predicate is simplified to the first check of
net/url (a URL containing an ASCII control character is rejected); rarer
failure modes (such as a malformed host or port) are not distinguished,
and NO theorem relies on the success side of this model for a flow that
carries an HTTP request — the C10 theorem excludes such flows.  On
success the fragment and query are cut and, when a scheme separator is
present, the scheme and authority are dropped. -/
def urlPath (u : String) : Option String :=
  if u.data.any (fun c => decide (c.toNat < 32 ∨ c.toNat = 127)) then none
  else
    let noFrag := (u.splitOn "#").headD ""
    let noQuery := (noFrag.splitOn "?").headD ""
    match noQuery.splitOn "://" with
    | [] => some ""
    | [only] => some only
    | _ :: rest =>
      let hostAndPath := "://".intercalate rest
      match hostAndPath.splitOn "/" with
      | [] => some ""
      | [_] => some ""
      | _ :: segs => some ("/" ++ "/".intercalate segs)

/-- `getHTTP`: method and URL path of an L7 HTTP *request* (type 1), else
empty strings.  The parse error of `url.Parse` is ignored by the source
(`u, _ := url.Parse(...)`, cilium.go:142), so when parsing fails the
`u.Path` read at cilium.go:143 is an invalid access on a nil URL —
modelled as `Except.error`.  `strings.Replace(path, "//", "/", 1)` is
applied under a `HasPrefix(path, "//")` guard, so the replaced occurrence
is the leading one. -/
def getHTTP (f : CiliumFlow) : Except Unit (String × String) :=
  match f.L7 with
  | none => .ok ("", "")
  | some l7 =>
    match l7.Http with
    | none => .ok ("", "")
    | some http =>
      if l7.«Type» = 1 then
        match urlPath http.Url with
        | none => .error ()
        | some path =>
          let path := if goHasPrefix path "//" then "/" ++ path.drop 2 else path
          .ok (http.Method, path)
      else .ok ("", "")

/-- Whether the flow carries an L7 HTTP *request* record (type 1) — the
one case in which the conversion parses a URL and can therefore perform
the invalid access of `getHTTP`. -/
def hasHTTPRequest (f : CiliumFlow) : Bool :=
  match f.L7 with
  | none => false
  | some l7 =>
    match l7.Http with
    | none => false
    | some _ => l7.«Type» == 1

-- ===================================================================== --
-- ConvertCiliumFlowToKnoxNetworkLog (src/plugin/cilium.go:160-253)
--
-- `Except.error ()` models a Go nil-pointer dereference panic; `.ok (l, b)`
-- models the Go return `(l, b)`.  Statement order follows the source; the
-- two L7 blocks are named stage functions returning the updated log and
-- the keep/discard flag.  The HTTP block is itself fallible, because
-- `getHTTP` performs an invalid access when `url.Parse` fails.
-- ===================================================================== --

/-- The L7 HTTP block (src/plugin/cilium.go:225-230): when an HTTP record
is present, extract method/path (which can perform an invalid access, see
`getHTTP`) and discard the record if both are empty. -/
def convertL7HTTPStep (f : CiliumFlow) (log : KnoxNetworkLog) :
    Except Unit (KnoxNetworkLog × Bool) :=
  match f.L7 with
  | some l7 =>
    match l7.Http with
    | some _ =>
      match getHTTP f with
      | .error e => .error e
      | .ok mp =>
        let log2 := { log with HTTPMethod := mp.1, HTTPPath := mp.2 }
        if log2.HTTPMethod = "" ∧ log2.HTTPPath = "" then .ok (log2, false)
        else .ok (log2, true)
    | none => .ok (log, true)
  | none => .ok (log, true)

/-- The L7 DNS block (src/plugin/cilium.go:233-250): for a DNS *response*
(type 2) with resolved IPs, skip cluster-internal service domains, strip a
trailing dot from the query, and record the query with its IP set. -/
def convertL7DNSStep (f : CiliumFlow) (log : KnoxNetworkLog) :
    KnoxNetworkLog × Bool :=
  match f.L7 with
  | some l7 =>
    match l7.Dns with
    | some dns =>
      if l7.«Type» = 2 ∧ dns.Ips.length > 0 then
        -- internal service-discovery domains are skipped
        if goHasSuffix dns.Query "svc.cluster.local." then (log, false)
        else
          ({ log with DNSRes := goTrimSuffix dns.Query ".", DNSResIPs := dns.Ips },
           true)
      else (log, true)
    | none => (log, true)
  | none => (log, true)

/-- The whole L7 section of the conversion
(src/plugin/cilium.go:225-252): run the HTTP block (propagating its
invalid access, if any), return ok=false when it discards the record, and
otherwise run the DNS block on its log and return its result. -/
def convertL7Steps (f : CiliumFlow) (log : KnoxNetworkLog) :
    Except Unit (KnoxNetworkLog × Bool) :=
  match convertL7HTTPStep f log with
  | .error e => .error e
  | .ok httpStep =>
    if httpStep.2 = false then .ok (httpStep.1, false)
    else .ok (convertL7DNSStep f httpStep.1)

def ConvertCiliumFlowToKnoxNetworkLog (f : CiliumFlow) :
    Except Unit (KnoxNetworkLog × Bool) :=
  let log0 : KnoxNetworkLog := {}
  -- packet dropped by a deny policy (drop reason 181): discard
  if f.Verdict = Verdict_DROPPED ∧ f.DropReason = 181 then .ok (log0, false)
  else
    -- set action
    let log1 := { log0 with Action := if f.Verdict = 2 then "deny" else "allow" }
    -- set EGRESS / INGRESS
    let log2 := { log1 with Direction := trafficDirectionString f.TrafficDirection }
    -- set namespace (ciliumFlow.Source.Namespace dereferences Source)
    match f.Source with
    | none => .error ()
    | some src =>
      let log3 := { log2 with SrcNamespace :=
        if src.Namespace = "" then getReservedLabelIfExist src.Labels
        else src.Namespace }
      match f.Destination with
      | none => .error ()
      | some dst =>
        let log4 := { log3 with DstNamespace :=
          if dst.Namespace = "" then getReservedLabelIfExist dst.Labels
          else dst.Namespace }
        -- set pod (ciliumFlow.IP.Source dereferences IP before the L3 check)
        let srcPod : Except Unit String :=
          if src.PodName = "" then
            match f.IP with
            | none => .error ()
            | some ip => .ok ip.Source
          else .ok src.PodName
        match srcPod with
        | .error e => .error e
        | .ok srcPodName =>
          let log5 := { log4 with SrcPodName := srcPodName }
          let dstPod : Except Unit String :=
            if dst.PodName = "" then
              match f.IP with
              | none => .error ()
              | some ip => .ok ip.Destination
            else .ok dst.PodName
          match dstPod with
          | .error e => .error e
          | .ok dstPodName =>
            let log6 := { log5 with DstPodName := dstPodName }
            -- get L3
            match f.IP with
            | none => .ok (log6, false)
            | some ip =>
              let log7 := { log6 with SrcIP := ip.Source, DstIP := ip.Destination }
              -- get L4
              match f.L4 with
              | none => .ok (log7, false)
              | some l4 =>
                let log8 := { log7 with Protocol := getProtocol l4 }
                let log9 :=
                  match l4.TCP with
                  | some tcp =>
                    if log8.Protocol = 6 then { log8 with SynFlag := isSynFlagOnly tcp }
                    else log8
                  | none => log8
                let ports := getL4Ports l4
                let log10 := { log9 with SrcPort := ports.1, DstPort := ports.2 }
                -- get L7 HTTP, then L7 DNS
                convertL7Steps f log10

-- ===================================================================== --
-- Flow buffer drain: GetCiliumFlowsFromHubble (src/plugin/cilium.go:680-712)
--
-- The mutex-guarded global `CiliumFlows` buffer is modelled by explicit
-- state passing: the result is (returned batch, buffer after the call).
-- The time-span log line is an observable side effect only and is omitted.
-- ===================================================================== --

def GetCiliumFlowsFromHubble (trigger : Int) (ciliumFlows : List CiliumFlow) :
    List CiliumFlow × List CiliumFlow :=
  if ciliumFlows.length = 0 then ([], ciliumFlows)
  else if (ciliumFlows.length : Int) < trigger then ([], ciliumFlows)
  else (ciliumFlows, [])

-- ===================================================================== --
-- Canonical policy data model (types.KnoxNetworkPolicy, from its uses in
-- src/ and the data model section of the spec ; the `types` package itself is not under
-- src/).
-- ===================================================================== --

/-- `types.Selector`. -/
structure Selector where
  MatchLabels : Option StrMap := none
deriving Repr, DecidableEq

/-- `types.SpecPort`. -/
structure SpecPort where
  Port : String := ""
  Protocol : String := ""
deriving Repr, DecidableEq

/-- `types.SpecCIDR`. -/
structure SpecCIDR where
  CIDRs : List String := []
deriving Repr, DecidableEq

instance : Inhabited SpecCIDR := ⟨{}⟩

/-- `types.SpecFQDN`. -/
structure SpecFQDN where
  MatchNames : List String := []
deriving Repr, DecidableEq

/-- `types.SpecHTTP`. -/
structure SpecHTTP where
  Method : String := ""
  Path : String := ""
deriving Repr, DecidableEq

/-- `types.SpecService`. -/
structure SpecService where
  ServiceName : String := ""
  Namespace : String := ""
deriving Repr, DecidableEq

/-- `types.Egress`: the five mutually-exclusive egress rule shapes plus
optional L4/L7 sub-rules (the field name `ToEndtities` keeps the spelling used by the source). -/
structure KnoxEgress where
  MatchLabels : Option StrMap := none
  ToPorts : List SpecPort := []
  ToCIDRs : List SpecCIDR := []
  ToEndtities : List String := []
  ToServices : List SpecService := []
  ToFQDNs : List SpecFQDN := []
  ToHTTPs : List SpecHTTP := []
deriving Repr, DecidableEq

instance : Inhabited KnoxEgress := ⟨{}⟩

/-- `types.Ingress`. -/
structure KnoxIngress where
  MatchLabels : Option StrMap := none
  ToPorts : List SpecPort := []
  ToHTTPs : List SpecHTTP := []
  FromCIDRs : List SpecCIDR := []
  FromEntities : List String := []
deriving Repr, DecidableEq

/-- `types.Spec`. -/
structure KnoxSpec where
  Selector : Selector := {}
  Egress : List KnoxEgress := []
  Ingress : List KnoxIngress := []
deriving Repr, DecidableEq

/-- `types.KnoxNetworkPolicy`: string-keyed metadata (name / namespace /
type / rule / status) plus the spec. -/
structure KnoxNetworkPolicy where
  Metadata : StrMap := []
  Spec : KnoxSpec := {}
deriving Repr, DecidableEq

instance : Inhabited KnoxNetworkPolicy := ⟨{}⟩

/-- `types.Service` (service catalog entries). -/
structure Service where
  ServiceName : String := ""
  Namespace : String := ""
  ServicePort : Nat := 0
  Protocol : String := ""
deriving Repr, DecidableEq

-- ===================================================================== --
-- Deep equality (cmp.Equal / reflect.DeepEqual) over policies: structural,
-- except that map-typed fields compare as unordered key/value sets.
-- ===================================================================== --

/-- `cmp.Equal` on nilable `map[string]string` (nil and non-nil differ). -/
def optMapEq (a b : Option StrMap) : Bool :=
  match a, b with
  | none, none => true
  | some ma, some mb => mapEqStr ma mb
  | _, _ => false

/-- `cmp.Equal(&a, &b)` on selectors. -/
def selEq (a b : Selector) : Bool :=
  optMapEq a.MatchLabels b.MatchLabels

/-- Elementwise list equality under a custom element comparison. -/
def listEqBy (eq : α → α → Bool) : List α → List α → Bool
  | [], [] => true
  | x :: xs, y :: ys => eq x y && listEqBy eq xs ys
  | _, _ => false

/-- `cmp.Equal` on one egress rule. -/
def egressEq (a b : KnoxEgress) : Bool :=
  optMapEq a.MatchLabels b.MatchLabels && a.ToPorts == b.ToPorts &&
  a.ToCIDRs == b.ToCIDRs && a.ToEndtities == b.ToEndtities &&
  a.ToServices == b.ToServices && a.ToFQDNs == b.ToFQDNs &&
  a.ToHTTPs == b.ToHTTPs

/-- `cmp.Equal` on one ingress rule. -/
def ingressEq (a b : KnoxIngress) : Bool :=
  optMapEq a.MatchLabels b.MatchLabels && a.ToPorts == b.ToPorts &&
  a.ToHTTPs == b.ToHTTPs && a.FromCIDRs == b.FromCIDRs &&
  a.FromEntities == b.FromEntities

/-- `cmp.Equal(&a.Spec, &b.Spec)`. -/
def specEq (a b : KnoxSpec) : Bool :=
  selEq a.Selector b.Selector && listEqBy egressEq a.Egress b.Egress &&
  listEqBy ingressEq a.Ingress b.Ingress

-- ===================================================================== --
-- Platform policy data model (types.CiliumNetworkPolicy, from its uses in
-- src/).
-- ===================================================================== --

/-- `types.CiliumPort`. -/
structure CiliumPort where
  Port : String := ""
  Protocol : String := ""
deriving Repr, DecidableEq

/-- `types.SubRule = map[string]string`. -/
abbrev SubRule := StrMap

/-- `types.CiliumPortList`: ports plus the `map[string][]SubRule` rule map
(as an association list; `[]` models the nil map). -/
structure CiliumPortList where
  Ports : List CiliumPort := []
  Rules : List (String × List SubRule) := []
deriving Repr, DecidableEq

instance : Inhabited CiliumPortList := ⟨{}⟩

/-- `types.CiliumEndpoint`. -/
structure CiliumEndpoint where
  MatchLabels : Option StrMap := none
deriving Repr, DecidableEq

/-- `types.CiliumK8sService`. -/
structure CiliumK8sService where
  ServiceName : String := ""
  Namespace : String := ""
deriving Repr, DecidableEq

/-- `types.CiliumService`. -/
structure CiliumService where
  K8sService : CiliumK8sService := {}
deriving Repr, DecidableEq

/-- `types.CiliumFQDN = map[string]string`. -/
abbrev CiliumFQDN := StrMap

/-- `types.CiliumEgress`. -/
structure CiliumEgress where
  ToEndpoints : List CiliumEndpoint := []
  ToPorts : List CiliumPortList := []
  ToCIDRs : List String := []
  ToEntities : List String := []
  ToServices : List CiliumService := []
  ToFQDNs : List CiliumFQDN := []
deriving Repr, DecidableEq

instance : Inhabited CiliumEgress := ⟨{}⟩

/-- `types.CiliumIngress`. -/
structure CiliumIngress where
  FromEndpoints : List CiliumEndpoint := []
  ToPorts : List CiliumPortList := []
  FromCIDRs : List String := []
  FromEntities : List String := []
deriving Repr, DecidableEq

instance : Inhabited CiliumIngress := ⟨{}⟩

/-- `types.CiliumSpec`. -/
structure CiliumSpec where
  Selector : Selector := {}
  Egress : List CiliumEgress := []
  Ingress : List CiliumIngress := []
deriving Repr, DecidableEq

/-- `types.CiliumNetworkPolicy`. -/
structure CiliumNetworkPolicy where
  APIVersion : String := ""
  Kind : String := ""
  Metadata : StrMap := []
  Spec : CiliumSpec := {}
deriving Repr, DecidableEq

-- ===================================================================== --
-- Policy synthesis (src/plugin/cilium.go:380-650)
-- ===================================================================== --

/-- `getCoreDNSEndpoint` (src/plugin/cilium.go:380-412): the kube-dns
endpoint match, plus the UDP/53 static rule or the catalog-derived ports,
with the wildcard DNS match-pattern sub-rule. -/
def getCoreDNSEndpoint (services : List Service) :
    List CiliumEndpoint × List CiliumPortList :=
  let matchLabel : StrMap :=
    [("k8s:io.kubernetes.pod.namespace", "kube-system"), ("k8s-app", "kube-dns")]
  let coreDNS : List CiliumEndpoint := [{ MatchLabels := some matchLabel }]
  let ports : List CiliumPort :=
    if services.length = 0 then [{ Port := "53", Protocol := "UDP" }]
    else
      services.foldl (fun acc svc =>
        if svc.Namespace = "kube-system" ∧ svc.ServiceName = "kube-dns" then
          acc ++ [{ Port := toString svc.ServicePort, Protocol := goToUpper svc.Protocol }]
        else acc) []
  let dnsRules : List SubRule := [[("matchPattern", "*")]]
  let toPorts : List CiliumPortList := [{ Ports := ports, Rules := [("dns", dnsRules)] }]
  (coreDNS, toPorts)

/-- `buildNewCiliumNetworkPolicy` (src/plugin/cilium.go:414-430).  The Go
loop copies only the "name" and "namespace" keys of the metadata map; the
resulting map is rebuilt here in a canonical key order (Go maps are
unordered). -/
def buildNewCiliumNetworkPolicy (inPolicy : KnoxNetworkPolicy) : CiliumNetworkPolicy :=
  { APIVersion := "cilium.io/v2"
    Kind := "CiliumNetworkPolicy"
    Metadata :=
      (if hasKey inPolicy.Metadata "name" then
        [("name", lookupStr inPolicy.Metadata "name")] else []) ++
      (if hasKey inPolicy.Metadata "namespace" then
        [("namespace", lookupStr inPolicy.Metadata "namespace")] else [])
    Spec := { Selector := inPolicy.Spec.Selector } }

/-- The `{"method": ..., "path": ...}` HTTP sub-rule list. -/
def httpSubRules (toHTTPs : List SpecHTTP) : List SubRule :=
  toHTTPs.foldl (fun acc http => acc ++ [[("method", http.Method), ("path", http.Path)]]) []

/-- `ciliumEgress.ToPorts[0].Ports = append(..., port)`. -/
def appendPortHead (toPorts : List CiliumPortList) (port : CiliumPort) :
    List CiliumPortList :=
  match toPorts with
  | [] => []
  | pl :: rest => { pl with Ports := pl.Ports ++ [port] } :: rest

/-- One iteration of the egress label-rule `toPorts` loop
(src/plugin/cilium.go:453-482): skip empty port numbers; on the first kept
port allocate the port list and attach the HTTP sub-rules under "http". -/
def addEgressLabelPort (toHTTPs : List SpecHTTP) (acc : List CiliumPortList)
    (toPort : SpecPort) : List CiliumPortList :=
  if toPort.Port = "" then acc
  else
    let acc :=
      if acc.isEmpty then
        [{ Ports := []
           Rules := if toHTTPs.length > 0 then [("http", httpSubRules toHTTPs)] else [] }]
      else acc
    appendPortHead acc { Port := toPort.Port, Protocol := goToUpper toPort.Protocol }

/-- One iteration of the egress CIDR-rule `toPorts` loop
(src/plugin/cilium.go:495-509): skip empty port numbers; lazy allocation,
no HTTP sub-rules. -/
def addEgressCidrPort (acc : List CiliumPortList) (toPort : SpecPort) :
    List CiliumPortList :=
  if toPort.Port = "" then acc
  else
    let acc := if acc.isEmpty then [{ Ports := [], Rules := [] }] else acc
    appendPortHead acc { Port := toPort.Port, Protocol := goToUpper toPort.Protocol }

/-- One FQDN egress entry (src/plugin/cilium.go:548-571): one
`{"matchName": ...}` per declared match name, and the declared ports (no
empty-port skip in this loop) attached with lazy allocation. -/
def fqdnEgressEntry (knoxEgress : KnoxEgress) (fqdn : SpecFQDN) : CiliumEgress :=
  { ToFQDNs := fqdn.MatchNames.foldl (fun acc n => acc ++ [[("matchName", n)]]) []
    ToPorts := knoxEgress.ToPorts.foldl (fun acc port =>
      let acc := if acc.isEmpty then [{ Ports := [], Rules := [] }] else acc
      appendPortHead acc { Port := port.Port, Protocol := goToUpper port.Protocol }) [] }

/-- Conversion of one Knox egress rule (src/plugin/cilium.go:441-576) into
the Cilium egress entries it appends: the FQDN shape first appends one
entry per `ToFQDNs` element, then the main entry is appended. -/
def convertKnoxEgress (services : List Service) (knoxEgress : KnoxEgress) :
    List CiliumEgress :=
  match knoxEgress.MatchLabels with
  | some ml =>
    [{ ToEndpoints := [{ MatchLabels := some ml }]
       ToPorts := knoxEgress.ToPorts.foldl (addEgressLabelPort knoxEgress.ToHTTPs) [] }]
  | none =>
    if knoxEgress.ToCIDRs.length > 0 then
      [knoxEgress.ToCIDRs.foldl (fun (ce : CiliumEgress) toCIDR =>
        let ce := { ce with ToCIDRs := toCIDR.CIDRs.foldl (fun acc c => acc ++ [c]) [] }
        { ce with ToPorts := knoxEgress.ToPorts.foldl addEgressCidrPort ce.ToPorts }) {}]
    else if knoxEgress.ToEndtities.length > 0 then
      [{ ToEntities := knoxEgress.ToEndtities.foldl (fun acc e => acc ++ [e]) [] }]
    else if knoxEgress.ToServices.length > 0 then
      [{ ToServices := knoxEgress.ToServices.foldl (fun acc service =>
          acc ++ [{ K8sService := { ServiceName := service.ServiceName
                                    Namespace := service.Namespace } }]) [] }]
    else if knoxEgress.ToFQDNs.length > 0 then
      (knoxEgress.ToFQDNs.foldl (fun acc fqdn => acc ++ [fqdnEgressEntry knoxEgress fqdn]) [])
        ++ [{ ToEndpoints := (getCoreDNSEndpoint services).1
              ToPorts := (getCoreDNSEndpoint services).2 }]
    else [{}]

/-- One iteration of the ingress `toPorts` loop
(src/plugin/cilium.go:597-622): lazy allocation with HTTP sub-rules under
"http"; unlike egress, there is no skip of empty port numbers. -/
def addIngressPort (toHTTPs : List SpecHTTP) (acc : List CiliumPortList)
    (toPort : SpecPort) : List CiliumPortList :=
  let acc :=
    if acc.isEmpty then
      [{ Ports := []
         Rules := if toHTTPs.length > 0 then [("http", httpSubRules toHTTPs)] else [] }]
    else acc
  appendPortHead acc { Port := toPort.Port, Protocol := goToUpper toPort.Protocol }

/-- Conversion of one Knox ingress rule (src/plugin/cilium.go:585-645). -/
def convertKnoxIngress (knoxIngress : KnoxIngress) : CiliumIngress :=
  let ciliumIngress : CiliumIngress := {}
  let ciliumIngress :=
    match knoxIngress.MatchLabels with
    | some ml =>
      { ciliumIngress with
        FromEndpoints := [{ MatchLabels := some ml }]
        ToPorts := knoxIngress.ToPorts.foldl (addIngressPort knoxIngress.ToHTTPs) [] }
    | none => ciliumIngress
  let ciliumIngress :=
    { ciliumIngress with
      FromCIDRs := knoxIngress.FromCIDRs.foldl
        (fun acc (fromCIDR : SpecCIDR) => fromCIDR.CIDRs.foldl (fun a c => a ++ [c]) acc)
        ciliumIngress.FromCIDRs }
  { ciliumIngress with
    FromEntities := knoxIngress.FromEntities.foldl (fun acc e => acc ++ [e])
      ciliumIngress.FromEntities }

/-- `ConvertKnoxNetworkPolicyToCiliumPolicy` (src/plugin/cilium.go:432-650). -/
def ConvertKnoxNetworkPolicyToCiliumPolicy (services : List Service)
    (inPolicy : KnoxNetworkPolicy) : CiliumNetworkPolicy :=
  let ciliumPolicy := buildNewCiliumNetworkPolicy inPolicy
  let ciliumPolicy :=
    if inPolicy.Spec.Egress.length > 0 then
      { ciliumPolicy with Spec := { ciliumPolicy.Spec with
          Egress := inPolicy.Spec.Egress.foldl
            (fun acc knoxEgress => acc ++ convertKnoxEgress services knoxEgress) [] } }
    else ciliumPolicy
  if inPolicy.Spec.Ingress.length > 0 then
    { ciliumPolicy with Spec := { ciliumPolicy.Spec with
        Ingress := inPolicy.Spec.Ingress.foldl
          (fun acc knoxIngress => acc ++ [convertKnoxIngress knoxIngress]) [] } }
  else ciliumPolicy

-- ===================================================================== --
-- Deduplication & lifecycle engine (src/core/deduplicator.go)
-- ===================================================================== --

/-- Modelled from the spec: `libs.ContainsElement` (the `libs` package is
not under src/) — membership by deep value equality, "skip ports already
present by value equality". -/
def containsElement [BEq α] (elements : List α) (e : α) : Bool :=
  elements.any (fun element => element == e)

/-- `policy.Spec.Egress[0]` (the source indexes CIDR/FQDN policies at
egress entry 0 unconditionally; a malformed policy would panic in Go). -/
def egress0 (policy : KnoxNetworkPolicy) : KnoxEgress :=
  policy.Spec.Egress.headD default

/-- `policy.Spec.Egress[0].ToPorts = toPorts`. -/
def setEgress0ToPorts (policy : KnoxNetworkPolicy) (toPorts : List SpecPort) :
    KnoxNetworkPolicy :=
  { policy with Spec := { policy.Spec with Egress :=
      match policy.Spec.Egress with
      | [] => []
      | e :: rest => { e with ToPorts := toPorts } :: rest } }

/-- The CIDR-list "inclusion" check of `GetLatestCIDRs`
(src/core/deduplicator.go:25-32), replicated faithfully: both ranges run
over the own CIDR list of `policy` (the CIDR list of the existing policy is never read),
so it is true iff all CIDR entries of the *discovered* policy are equal to
each other. -/
def cidrSelfIncluded (policy : KnoxNetworkPolicy) : Bool :=
  let cidrs := ((egress0 policy).ToCIDRs.headD default).CIDRs
  cidrs.all (fun cidr => cidrs.all (fun existCidr => cidr == existCidr))

/-- `GetLatestCIDRs` (src/core/deduplicator.go:13-41); `none` models the
`(types.KnoxNetworkPolicy{}, false)` return. -/
def GetLatestCIDRs (existingPolicies : List KnoxNetworkPolicy)
    (policy : KnoxNetworkPolicy) : Option KnoxNetworkPolicy :=
  existingPolicies.find? (fun exist =>
    selEq exist.Spec.Selector policy.Spec.Selector &&
    (lookupStr exist.Metadata "type" == lookupStr policy.Metadata "type") &&
    strContainsSub (lookupStr exist.Metadata "rule") "toCIDRs" &&
    (lookupStr exist.Metadata "status" == "latest") &&
    cidrSelfIncluded policy)

/-- The FQDN match-name "inclusion" check of `GetLastedFQDNs`
(src/core/deduplicator.go:55-63): the same self-comparison as
`cidrSelfIncluded`, over the own match names of `policy`. -/
def fqdnSelfIncluded (policy : KnoxNetworkPolicy) : Bool :=
  let names := ((egress0 policy).ToFQDNs.headD ⟨[]⟩).MatchNames
  names.all (fun dns => names.all (fun existDNS => dns == existDNS))

/-- `GetLastedFQDNs` (src/core/deduplicator.go:44-72). -/
def GetLastedFQDNs (existingPolicies : List KnoxNetworkPolicy)
    (policy : KnoxNetworkPolicy) : Option KnoxNetworkPolicy :=
  existingPolicies.find? (fun exist =>
    selEq exist.Spec.Selector policy.Spec.Selector &&
    (lookupStr exist.Metadata "type" == lookupStr policy.Metadata "type") &&
    strContainsSub (lookupStr exist.Metadata "rule") "toFQDNs" &&
    (lookupStr exist.Metadata "status" == "latest") &&
    fqdnSelfIncluded policy)

/-- `UpdateCIDR` (src/core/deduplicator.go:75-105).  The third component
models the `libs.UpdateOutdatedLabel(outdatedName, newName)` side effect —
Modelled from the spec: "mark the existing policy outdated (annotate it
with a back-reference to the name of the superseding discovered policy)" — as
an emitted (outdated name, superseding name) pair. -/
def UpdateCIDR (policy : KnoxNetworkPolicy)
    (existingPolicies : List KnoxNetworkPolicy) :
    KnoxNetworkPolicy × Bool × List (String × String) :=
  if lookupStr policy.Metadata "type" = "egress" then
    match GetLatestCIDRs existingPolicies policy with
    -- case 1: policy is new one
    | none => (policy, true, [])
    | some latestCidrs =>
      -- case 2: policy has no toPorts, latest has toPorts
      if (egress0 policy).ToPorts.length = 0 ∧
          (egress0 latestCidrs).ToPorts.length > 0 then
        (policy, false, [])
      else
        -- case 3: policy has toPorts, latest has toPorts or no toPorts
        let toPorts := (egress0 latestCidrs).ToPorts.foldl
          (fun acc toPort =>
            if !(containsElement acc toPort) then acc ++ [toPort] else acc)
          (egress0 policy).ToPorts
        (setEgress0ToPorts policy toPorts, true,
          [(lookupStr latestCidrs.Metadata "name", lookupStr policy.Metadata "name")])
  else
    -- if ingress cidr, no handling needed (source comment)
    (policy, true, [])

/-- `UpdateFQDN` (src/core/deduplicator.go:108-138), same shape as
`UpdateCIDR` with the FQDN lookup. -/
def UpdateFQDN (policy : KnoxNetworkPolicy)
    (existingPolicies : List KnoxNetworkPolicy) :
    KnoxNetworkPolicy × Bool × List (String × String) :=
  if lookupStr policy.Metadata "type" = "egress" then
    match GetLastedFQDNs existingPolicies policy with
    | none => (policy, true, [])
    | some latestFQDNs =>
      if (egress0 policy).ToPorts.length = 0 ∧
          (egress0 latestFQDNs).ToPorts.length > 0 then
        (policy, false, [])
      else
        let toPorts := (egress0 latestFQDNs).ToPorts.foldl
          (fun acc toPort =>
            if !(containsElement acc toPort) then acc ++ [toPort] else acc)
          (egress0 policy).ToPorts
        (setEgress0ToPorts policy toPorts, true,
          [(lookupStr latestFQDNs.Metadata "name", lookupStr policy.Metadata "name")])
  else (policy, true, [])

/-- `IsExistedPolicy` (src/core/deduplicator.go:159-167). -/
def IsExistedPolicy (existingPolicies : List KnoxNetworkPolicy)
    (inPolicy : KnoxNetworkPolicy) : Bool :=
  existingPolicies.any (fun policy => specEq policy.Spec inPolicy.Spec)

/-- The renaming loop of `ReplaceDuplcatedName`
(src/core/deduplicator.go:182-188).  Modelled from the spec:
`libs.RandSeq(10)` ("appending a random suffix") is modelled by consuming
successive suffixes from the `draws` list; the loop re-checks after each
draw, and stops with the current name if the modelled random tape is
exhausted. -/
def replaceNameLoop (existNames : List String) :
    List String → String → String × List String
  | draws, name =>
    if containsElement existNames name then
      match draws with
      | [] => (name, [])
      | draw :: rest =>
        replaceNameLoop existNames rest
          (if goHasPrefix name "autopol-egress" then "autopol-egress" ++ draw
           else "autopol-ingress" ++ draw)
    else (name, draws)

/-- `ReplaceDuplcatedName` (src/core/deduplicator.go:170-193), returning
also the unconsumed random draws. -/
def ReplaceDuplcatedName (draws : List String)
    (existingPolicies : List KnoxNetworkPolicy) (policy : KnoxNetworkPolicy) :
    KnoxNetworkPolicy × List String :=
  let existNames := existingPolicies.foldl
    (fun acc exist => acc ++ [lookupStr exist.Metadata "name"]) []
  let nameRest := replaceNameLoop existNames draws (lookupStr policy.Metadata "name")
  ({ policy with Metadata := setStr policy.Metadata "name" nameRest.1 }, nameRest.2)

/-- `getToFQDNsFromNewDiscoveredPolicies` (src/core/deduplicator.go:196-210). -/
def getToFQDNsFromNewDiscoveredPolicies (policy : KnoxNetworkPolicy)
    (newPolicies : List KnoxNetworkPolicy) : List KnoxNetworkPolicy :=
  newPolicies.foldl (fun toFQDNs newPolicy =>
    if selEq policy.Spec.Selector newPolicy.Spec.Selector then
      newPolicy.Spec.Egress.foldl (fun acc egress =>
        if egress.ToFQDNs.length > 0 ∧ ¬(containsElement acc newPolicy) then
          acc ++ [newPolicy]
        else acc) toFQDNs
    else toFQDNs) []

/-- `getDomainNameFromMap` (src/core/deduplicator.go:213-223).  The Go map
iteration is order-nondeterministic; the model scans the association list
in order (claims only exercise the unambiguous cases). -/
def getDomainNameFromMap (inIP : String) (dnsToIPs : List (String × List String)) :
    String :=
  match dnsToIPs.find? (fun entry => entry.2.any (fun ip => inIP == ip)) with
  | some entry => entry.1
  | none => ""

/-- `existDomainNameInFQDN` (src/core/deduplicator.go:226-238). -/
def existDomainNameInFQDN (domainName : String)
    (fqdnPolicies : List KnoxNetworkPolicy) : Option KnoxNetworkPolicy :=
  fqdnPolicies.find? (fun policy =>
    policy.Spec.Egress.any (fun egress =>
      egress.ToFQDNs.any (fun fqdn => containsElement fqdn.MatchNames domainName)))

/-- The port merge of the promotion pass (src/core/deduplicator.go:258-274):
move the ports of the CIDR policy into the port list of the FQDN policy, skipping
ports already present. -/
def mergeCidrPortsIntoFqdn (fqdnPolicy : KnoxNetworkPolicy)
    (cidrToPorts : List SpecPort) : KnoxNetworkPolicy :=
  let fqdnToPorts := (egress0 fqdnPolicy).ToPorts
  let merged := cidrToPorts.foldl
    (fun acc toPort => if !(containsElement acc toPort) then acc ++ [toPort] else acc)
    fqdnToPorts
  setEgress0ToPorts fqdnPolicy merged

/-- The write-back of the promotion pass (src/core/deduplicator.go:275-279):
replace every entry of `newPolicies` carrying the name of the updated policy. -/
def writeBackByName (newPolicies : List KnoxNetworkPolicy)
    (fqdnPolicy : KnoxNetworkPolicy) : List KnoxNetworkPolicy :=
  newPolicies.map (fun exist =>
    if lookupStr fqdnPolicy.Metadata "name" == lookupStr exist.Metadata "name" then
      fqdnPolicy
    else exist)

/-- The inner per-CIDR loop of `updateExistCIDRtoNewFQDN`
(src/core/deduplicator.go:251-284), threading the mutated `newPolicies`
and the emitted outdated marks; `toFQDNs` is the (possibly stale) list
computed before the loop, as in the source. -/
def processCidrList (existCIDR : KnoxNetworkPolicy)
    (dnsToIPs : List (String × List String)) (toFQDNs : List KnoxNetworkPolicy)
    (st : List KnoxNetworkPolicy × List (String × String)) (cidrs : List String) :
    List KnoxNetworkPolicy × List (String × String) :=
  cidrs.foldl (fun st cidr =>
    let ip := (cidr.splitOn "/").headD ""
    let domainName := getDomainNameFromMap ip dnsToIPs
    match existDomainNameInFQDN domainName toFQDNs with
    | none => st
    | some fqdnPolicy =>
      let newPolicies :=
        if (egress0 existCIDR).ToPorts.length > 0 then
          writeBackByName st.1
            (mergeCidrPortsIntoFqdn fqdnPolicy (egress0 existCIDR).ToPorts)
        else st.1
      (newPolicies,
        st.2 ++ [(lookupStr existCIDR.Metadata "name",
                  lookupStr fqdnPolicy.Metadata "name")])) st

/-- `updateExistCIDRtoNewFQDN` (src/core/deduplicator.go:241-288): the
CIDR→FQDN promotion pass over the existing policy set, returning the
updated output set and the emitted outdated marks. -/
def updateExistCIDRtoNewFQDN (existingPolicies newPolicies : List KnoxNetworkPolicy)
    (dnsToIPs : List (String × List String)) :
    List KnoxNetworkPolicy × List (String × String) :=
  existingPolicies.foldl (fun st existCIDR =>
    if lookupStr existCIDR.Metadata "type" = "egress" ∧
        strContainsSub (lookupStr existCIDR.Metadata "rule") "toCIDRs" then
      (egress0 existCIDR).ToCIDRs.foldl (fun st toCidr =>
        let toFQDNs := getToFQDNsFromNewDiscoveredPolicies existCIDR st.1
        processCidrList existCIDR dnsToIPs toFQDNs st toCidr.CIDRs) st
    else st) (newPolicies, [])

/-- `DeduplicatePolicies` (src/core/deduplicator.go:291-328).  `draws` is
the modelled random tape for `ReplaceDuplcatedName`, threaded through the
batch; the second component collects the `libs.UpdateOutdatedLabel` marks
(outdated name, superseding name). -/
def DeduplicatePolicies (draws : List String)
    (existingPolicies discoveredPolicies : List KnoxNetworkPolicy)
    (dnsToIPs : List (String × List String)) :
    List KnoxNetworkPolicy × List (String × String) :=
  let folded := discoveredPolicies.foldl (fun st policy =>
    let (newPolicies, marks, drawsLeft) := st
    -- step 1: compare the total network policy spec
    if IsExistedPolicy existingPolicies policy then st
    else
      -- step 2: compare the inside CIDR rules
      let step2 :=
        if strContainsSub (lookupStr policy.Metadata "rule") "toCIDRs" then
          UpdateCIDR policy existingPolicies
        else (policy, true, [])
      if step2.2.1 = false then (newPolicies, marks ++ step2.2.2, drawsLeft)
      else
        -- step 3: compare the inside FQDN rules
        let step3 :=
          if strContainsSub (lookupStr step2.1.Metadata "rule") "toFQDNs" then
            UpdateFQDN step2.1 existingPolicies
          else (step2.1, true, [])
        if step3.2.1 = false then
          (newPolicies, marks ++ step2.2.2 ++ step3.2.2, drawsLeft)
        else
          -- second step 3 (source numbering): check policy name conflict
          let named := ReplaceDuplcatedName drawsLeft existingPolicies step3.1
          (newPolicies ++ [named.1], marks ++ step2.2.2 ++ step3.2.2, named.2))
    ([], [], draws)
  -- step 4: check existed cidr -> new fqdn
  let final := updateExistCIDRtoNewFQDN existingPolicies folded.1 dnsToIPs
  (final.1, folded.2.1 ++ final.2)

-- ===================================================================== --
-- Concrete sample policies and flows used by the theorems below
-- ===================================================================== --

/-- An egress CIDR policy in the shape discovery produces: metadata
(name / namespace / type=egress / rule=toCIDRs / status), a label selector,
one egress rule with one `SpecCIDR` entry and the given ports. -/
def mkCidrPolicy (name status : String) (sel : StrMap) (cidrs : List String)
    (ports : List SpecPort) : KnoxNetworkPolicy :=
  { Metadata := [("name", name), ("namespace", "default"), ("type", "egress"),
                 ("rule", "toCIDRs"), ("status", status)]
    Spec := { Selector := { MatchLabels := some sel }
              Egress := [{ ToCIDRs := [{ CIDRs := cidrs }], ToPorts := ports }] } }

/-- An existing "latest" egress CIDR policy for 10.0.0.1/32. -/
def cidrPolicyA : KnoxNetworkPolicy :=
  mkCidrPolicy "autopol-egress-old" "latest" [("app", "a")] ["10.0.0.1/32"] []

/-- A discovered egress CIDR policy with the same selector but a different
CIDR set, 10.0.0.2/32. -/
def cidrPolicyB : KnoxNetworkPolicy :=
  mkCidrPolicy "autopol-egress-new" "latest" [("app", "a")] ["10.0.0.2/32"] []

/-- Two discovered policies that both carry the proposed name
"autopol-egress-x" (and collide with no existing policy). -/
def namedPolicyA : KnoxNetworkPolicy :=
  mkCidrPolicy "autopol-egress-x" "latest" [("app", "b")] ["1.1.1.1/32"] []

/-- Second policy with the same proposed name, different spec. -/
def namedPolicyB : KnoxNetworkPolicy :=
  mkCidrPolicy "autopol-egress-x" "latest" [("app", "b")] ["2.2.2.2/32"] []

/-- An existing "latest" egress policy whose single CIDR rule lists two
distinct CIDRs, with port 80/TCP. -/
def multiCidrExisting : KnoxNetworkPolicy :=
  mkCidrPolicy "autopol-egress-old" "latest" [("app", "a")]
    ["1.1.1.1/32", "2.2.2.2/32"] [{ Port := "80", Protocol := "tcp" }]

/-- A discovered policy with the same selector and the same two-element
CIDR set, with port 443/TCP. -/
def multiCidrDiscovered : KnoxNetworkPolicy :=
  mkCidrPolicy "autopol-egress-new" "latest" [("app", "a")]
    ["1.1.1.1/32", "2.2.2.2/32"] [{ Port := "443", Protocol := "tcp" }]

/-- A discovered policy with the same selector and the same two-element
CIDR set, with no ports. -/
def multiCidrDiscoveredNoPorts : KnoxNetworkPolicy :=
  mkCidrPolicy "autopol-egress-new" "latest" [("app", "a")]
    ["1.1.1.1/32", "2.2.2.2/32"] []

/-- A canonical policy whose single ingress rule has a peer selector and
one port entry with an empty port number. -/
def ingressEmptyPortPolicy : KnoxNetworkPolicy :=
  { Metadata := [("name", "autopol-ingress-x")]
    Spec := { Selector := { MatchLabels := some [("app", "a")] }
              Ingress := [{ MatchLabels := some [("app", "b")]
                            ToPorts := [{ Port := "", Protocol := "tcp" }] }] } }

/-- The egress counterpart of `ingressEmptyPortPolicy`: the same peer
selector and the same empty-port entry, as an egress rule. -/
def egressEmptyPortPolicy : KnoxNetworkPolicy :=
  { Metadata := [("name", "autopol-egress-x")]
    Spec := { Selector := { MatchLabels := some [("app", "a")] }
              Egress := [{ MatchLabels := some [("app", "b")]
                           ToPorts := [{ Port := "", Protocol := "tcp" }] }] } }

/-- A forwarded flow with every optional sub-record absent (in particular a
nil `Source`). -/
def nilSourceFlow : CiliumFlow := { Verdict := 1 }

/-- A forwarded flow with endpoints present (nonempty pod names) and no IP
record. -/
def noIPFlow : CiliumFlow :=
  { Verdict := 1
    Source := some { PodName := "pod-a" }
    Destination := some { PodName := "pod-b" } }

-- ===================================================================== --
-- Helper lemmas on the Go-map model
-- ===================================================================== --

theorem find?_eq_none_of_not_hasKey {m : StrMap} {k : String}
    (h : hasKey m k = false) : m.find? (fun kv => kv.1 == k) = none := by
  induction m with
  | nil => rfl
  | cons a t ih =>
    simp only [hasKey, List.any_cons, Bool.or_eq_false_iff] at h
    simp only [List.find?_cons, h.1]
    exact ih (by simp only [hasKey]; exact h.2)

theorem lookupStr_setStr (m : StrMap) (k v : String) :
    lookupStr (setStr m k v) k = v := by
  unfold setStr
  by_cases h : hasKey m k = true
  · rw [if_pos h]
    induction m with
    | nil => simp [hasKey] at h
    | cons a t ih =>
      simp only [List.map_cons]
      by_cases ha : (a.1 == k) = true
      · rw [if_pos ha]
        simp [lookupStr, List.find?_cons]
      · rw [if_neg (by simp [ha])]
        have ht : hasKey t k = true := by
          simp only [hasKey, List.any_cons, ha, Bool.false_or] at h
          simpa [hasKey] using h
        simpa [lookupStr, List.find?_cons, ha] using ih ht
  · rw [if_neg h]
    have hb : hasKey m k = false := by simpa using h
    have hnone := find?_eq_none_of_not_hasKey (m := m) (k := k) hb
    simp [lookupStr, List.find?_append, hnone]

theorem find?_mem_of_nodupKeys {m : StrMap} {kv : String × String}
    (hnd : (m.map Prod.fst).Nodup) (hmem : kv ∈ m) :
    m.find? (fun x => x.1 == kv.1) = some kv := by
  induction m with
  | nil => cases hmem
  | cons a t ih =>
    simp only [List.map_cons, List.nodup_cons] at hnd
    rcases List.mem_cons.mp hmem with heq | hmem'
    · subst heq; simp [List.find?_cons]
    · have hne : (a.1 == kv.1) = false := by
        have : kv.1 ∈ t.map Prod.fst := List.mem_map_of_mem Prod.fst hmem'
        have : a.1 ≠ kv.1 := fun hc => hnd.1 (hc ▸ this)
        simpa using this
      simp only [List.find?_cons, hne, Bool.false_eq_true, if_false]
      exact ih hnd.2 hmem'

theorem mapEqStr_refl {m : StrMap} (hnd : (m.map Prod.fst).Nodup) :
    mapEqStr m m = true := by
  have hall : m.all (fun kv => hasKey m kv.1 && (lookupStr m kv.1 == kv.2)) = true := by
    rw [List.all_eq_true]
    intro kv hkv
    have hfind := find?_mem_of_nodupKeys hnd hkv
    have h1 : hasKey m kv.1 = true := by
      simp only [hasKey, List.any_eq_true]
      exact ⟨kv, hkv, by simp⟩
    have h2 : lookupStr m kv.1 = kv.2 := by simp [lookupStr, hfind]
    simp [h1, h2]
  simp [mapEqStr, hall]

theorem selEq_refl {ml : StrMap} (hnd : (ml.map Prod.fst).Nodup) :
    selEq { MatchLabels := some ml } { MatchLabels := some ml } = true := by
  simp [selEq, optMapEq, mapEqStr_refl hnd]

theorem foldl_append_singleton {α : Type} (l : List α) (acc : List α) :
    l.foldl (fun a x => a ++ [x]) acc = acc ++ l := by
  induction l generalizing acc with
  | nil => simp
  | cons x xs ih => simp [List.foldl_cons, ih, List.append_assoc]

-- ===================================================================== --
-- Stage lemmas about the deduplication engine
-- ===================================================================== --

theorem IsExistedPolicy_nil (p : KnoxNetworkPolicy) :
    IsExistedPolicy [] p = false := rfl

theorem UpdateCIDR_nil (p : KnoxNetworkPolicy) :
    UpdateCIDR p [] = (p, true, []) := by
  unfold UpdateCIDR GetLatestCIDRs
  split <;> rfl

theorem UpdateFQDN_nil (p : KnoxNetworkPolicy) :
    UpdateFQDN p [] = (p, true, []) := by
  unfold UpdateFQDN GetLastedFQDNs
  split <;> rfl

theorem replaceNameLoop_not_contained (existNames draws : List String)
    (name : String) (h : containsElement existNames name = false) :
    replaceNameLoop existNames draws name = (name, draws) := by
  cases draws <;> simp [replaceNameLoop, h]

theorem ReplaceDuplcatedName_nil (draws : List String) (p : KnoxNetworkPolicy) :
    ReplaceDuplcatedName draws [] p =
      ({ p with Metadata := setStr p.Metadata "name" (lookupStr p.Metadata "name") },
       draws) := by
  unfold ReplaceDuplcatedName
  simp only [List.foldl_nil,
    replaceNameLoop_not_contained [] draws (lookupStr p.Metadata "name") rfl]

theorem updateExistCIDRtoNewFQDN_nil (nps : List KnoxNetworkPolicy)
    (dns : List (String × List String)) :
    updateExistCIDRtoNewFQDN [] nps dns = (nps, []) := rfl

-- ===================================================================== --
-- C2 — name uniqueness of the deduplicated output
-- ===================================================================== --

/-- C2, counterexample: reconciling two discovered policies that both carry
the proposed name "autopol-egress-x" against an empty existing store yields
two output policies with the SAME name — the output of
`DeduplicatePolicies` does contain two policies with the same name, because
`ReplaceDuplcatedName` checks the proposed name only against the
existing-policy names, never against the other outputs of the batch. -/
theorem dedup_duplicate_output_names :
    (DeduplicatePolicies [] [] [namedPolicyA, namedPolicyB] []).1.map
        (fun p => lookupStr p.Metadata "name")
      = ["autopol-egress-x", "autopol-egress-x"] := rfl

/-- C2, amended: name-collision resolution is unique only against the
existing-policy name set.  Reconciling any two discovered policies that
share one proposed name `n` against an empty existing store emits both
under that same name `n` (so the output can contain duplicate names). -/
theorem dedup_same_new_name_kept (draws : List String)
    (dns : List (String × List String)) (p1 p2 : KnoxNetworkPolicy) (n : String)
    (h1 : lookupStr p1.Metadata "name" = n)
    (h2 : lookupStr p2.Metadata "name" = n) :
    (DeduplicatePolicies draws [] [p1, p2] dns).1.map
      (fun p => lookupStr p.Metadata "name") = [n, n] := by
  unfold DeduplicatePolicies
  simp only [List.foldl_cons, List.foldl_nil, IsExistedPolicy_nil,
    Bool.false_eq_true, if_false, UpdateCIDR_nil, UpdateFQDN_nil, ite_self,
    ReplaceDuplcatedName_nil, updateExistCIDRtoNewFQDN_nil, Bool.true_eq_false,
    List.nil_append, List.singleton_append, List.map_cons, List.map_nil,
    lookupStr_setStr, h1, h2]

/-- C2, witness for `dedup_same_new_name_kept` at a concrete input. -/
theorem dedup_same_new_name_kept_witness :
    (DeduplicatePolicies ["abcdefghij"] [] [namedPolicyA, namedPolicyB]
        [("example.com", ["9.9.9.9"])]).1.map
      (fun p => lookupStr p.Metadata "name")
      = ["autopol-egress-x", "autopol-egress-x"] :=
  dedup_same_new_name_kept ["abcdefghij"] [("example.com", ["9.9.9.9"])]
    namedPolicyA namedPolicyB "autopol-egress-x" rfl rfl

-- ===================================================================== --
-- C1 — the CIDR-set check of GetLatestCIDRs
-- ===================================================================== --

/-- C1 (defect in the code): `GetLatestCIDRs` returns an existing "latest"
policy with found=true even though its CIDR set (10.0.0.1/32) differs from
the CIDR set of the discovered policy (10.0.0.2/32): the inclusion check at
src/core/deduplicator.go:26-31 ranges both loops over the CIDR list of the
discovered policy itself, so the CIDR list of the existing policy is never
compared.  The claim — found=true only for an identical CIDR set — is the
documented intent, and this evaluation exhibits the failing input. -/
theorem getLatestCIDRs_matches_despite_different_cidr_set :
    GetLatestCIDRs [cidrPolicyA] cidrPolicyB = some cidrPolicyA := rfl

-- ===================================================================== --
-- C3 — all-or-nothing drain of the flow buffer
-- ===================================================================== --

/-- A sample buffered flow. -/
def sampleFlow : CiliumFlow := { Verdict := 1, TrafficDirection := 2 }

/-- C3: for every buffer state and every threshold,
`GetCiliumFlowsFromHubble` returns the entire buffered sequence and resets
the buffer to empty when the buffer length is at least the threshold, and
otherwise returns the empty sequence and leaves the buffer unchanged. -/
theorem hubble_drain_all_or_nothing (trigger : Int) (buf : List CiliumFlow) :
    (trigger ≤ (buf.length : Int) →
      GetCiliumFlowsFromHubble trigger buf = (buf, [])) ∧
    ((buf.length : Int) < trigger →
      GetCiliumFlowsFromHubble trigger buf = ([], buf)) := by
  constructor
  · intro h
    unfold GetCiliumFlowsFromHubble
    by_cases h0 : buf.length = 0
    · have hb : buf = [] := List.length_eq_zero.mp h0
      subst hb; simp
    · have hnl : ¬((buf.length : Int) < trigger) := by omega
      simp [h0, hnl]
  · intro h
    unfold GetCiliumFlowsFromHubble
    by_cases h0 : buf.length = 0
    · have hb : buf = [] := List.length_eq_zero.mp h0
      subst hb; simp
    · simp [h0, h]

/-- C3, witness for `hubble_drain_all_or_nothing`: a one-flow buffer drains
fully at threshold 1 and not at all at threshold 2. -/
theorem hubble_drain_all_or_nothing_witness :
    GetCiliumFlowsFromHubble 1 [sampleFlow] = ([sampleFlow], []) ∧
    GetCiliumFlowsFromHubble 2 [sampleFlow] = ([], [sampleFlow]) :=
  ⟨(hubble_drain_all_or_nothing 1 [sampleFlow]).1 (by decide),
   (hubble_drain_all_or_nothing 2 [sampleFlow]).2 (by decide)⟩

-- ===================================================================== --
-- C7 — flows denied by a deny policy are never normalized
-- ===================================================================== --

/-- C7: a raw flow whose verdict is DROPPED (2) and whose drop reason is
the reserved policy-deny code 181 makes
`ConvertCiliumFlowToKnoxNetworkLog` return ok=false (with the zero-valued
log), so no NetworkLog is produced from it. -/
theorem dropped_policy_denied_flow_discarded (f : CiliumFlow)
    (hv : f.Verdict = Verdict_DROPPED) (hd : f.DropReason = 181) :
    ConvertCiliumFlowToKnoxNetworkLog f = .ok ({}, false) := by
  unfold ConvertCiliumFlowToKnoxNetworkLog
  rw [if_pos ⟨hv, hd⟩]

/-- A flow dropped by a deny policy. -/
def droppedDeniedFlow : CiliumFlow := { Verdict := 2, DropReason := 181 }

/-- C7, witness for `dropped_policy_denied_flow_discarded`. -/
theorem dropped_policy_denied_flow_discarded_witness :
    ConvertCiliumFlowToKnoxNetworkLog droppedDeniedFlow = .ok ({}, false) :=
  dropped_policy_denied_flow_discarded droppedDeniedFlow rfl rfl

-- ===================================================================== --
-- C9 — synthesis is deterministic
-- ===================================================================== --

/-- C9: `ConvertKnoxNetworkPolicyToCiliumPolicy` is a pure function of the
service catalog and the canonical policy (it reads no other state in the
embedding, as in the source), so two invocations on the same inputs yield
structurally identical platform policies. -/
theorem synthesis_repeatable (services : List Service)
    (inPolicy : KnoxNetworkPolicy) :
    ConvertKnoxNetworkPolicyToCiliumPolicy services inPolicy =
      ConvertKnoxNetworkPolicyToCiliumPolicy services inPolicy := rfl

-- ===================================================================== --
-- C6 — ingress label-match port synthesis
-- ===================================================================== --

/-- C6, counterexample: ingress synthesis is NOT symmetric to egress on
empty port numbers.  For a port entry with an empty port number, the
ingress loop allocates the port list and attaches the empty port
(`{Port := "", Protocol := "TCP"}`), while the egress loop on the same
shape skips the entry and allocates nothing — so the claim that ingress
skips port entries with an empty port number fails on this input. -/
theorem ingress_attaches_empty_port_counterexample :
    (ConvertKnoxNetworkPolicyToCiliumPolicy [] ingressEmptyPortPolicy).Spec.Ingress
        = [{ FromEndpoints := [{ MatchLabels := some [("app", "b")] }]
             ToPorts := [{ Ports := [{ Port := "", Protocol := "TCP" }]
                           Rules := [] }] }] ∧
    (ConvertKnoxNetworkPolicyToCiliumPolicy [] egressEmptyPortPolicy).Spec.Egress
        = [{ ToEndpoints := [{ MatchLabels := some [("app", "b")] }]
             ToPorts := [] }] := ⟨rfl, rfl⟩

theorem ingress_ports_foldl (toHTTPs : List SpecHTTP) (tps : List SpecPort)
    (ps : List CiliumPort) (rs : List (String × List SubRule)) :
    tps.foldl (addIngressPort toHTTPs) [{ Ports := ps, Rules := rs }]
      = [{ Ports := ps ++ tps.map
            (fun p => { Port := p.Port, Protocol := goToUpper p.Protocol })
           Rules := rs }] := by
  induction tps generalizing ps with
  | nil => simp
  | cons p rest ih =>
    have hstep : addIngressPort toHTTPs [{ Ports := ps, Rules := rs }] p
        = [{ Ports := ps ++ [{ Port := p.Port, Protocol := goToUpper p.Protocol }]
             Rules := rs }] := by
      simp [addIngressPort, appendPortHead]
    simp only [List.foldl_cons, List.map_cons, hstep, ih]
    simp [List.append_assoc]

theorem foldl_cidr_append (fcs : List SpecCIDR) (acc : List String) :
    fcs.foldl (fun a (fc : SpecCIDR) => fc.CIDRs.foldl (fun a2 c => a2 ++ [c]) a) acc
      = fcs.foldl (fun a fc => a ++ fc.CIDRs) acc := by
  induction fcs generalizing acc with
  | nil => rfl
  | cons fc rest ih => simp [List.foldl_cons, foldl_append_singleton, ih]

/-- C6, amended: for a canonical policy with one ingress label-match rule,
synthesis copies the peer selector, lazily allocates the platform port
list on the FIRST port entry (allocated iff the entry list is nonempty)
and attaches EVERY port entry — entries with an empty port number are NOT
skipped (unlike the symmetric egress loop) — and attaches the HTTP
sub-rules, when declared, under the "http" rule-type tag. -/
theorem ingress_label_match_synthesis (services : List Service) (meta : StrMap)
    (sel : Selector) (ml : StrMap) (tps : List SpecPort) (https : List SpecHTTP)
    (fcs : List SpecCIDR) (fes : List String) :
    (ConvertKnoxNetworkPolicyToCiliumPolicy services
        { Metadata := meta
          Spec := { Selector := sel, Egress := []
                    Ingress := [{ MatchLabels := some ml, ToPorts := tps
                                  ToHTTPs := https, FromCIDRs := fcs
                                  FromEntities := fes }] } }).Spec.Ingress
      = [{ FromEndpoints := [{ MatchLabels := some ml }]
           ToPorts :=
             if tps.isEmpty then []
             else [{ Ports := tps.map
                       (fun p => { Port := p.Port, Protocol := goToUpper p.Protocol })
                     Rules := if https.length > 0 then [("http", httpSubRules https)]
                              else [] }]
           FromCIDRs := fcs.foldl (fun acc fc => acc ++ fc.CIDRs) []
           FromEntities := fes }] := by
  unfold ConvertKnoxNetworkPolicyToCiliumPolicy
  simp only [List.length_nil, gt_iff_lt, Nat.lt_irrefl, if_false,
    List.length_cons, Nat.zero_lt_succ, if_true, List.foldl_cons, List.foldl_nil,
    List.nil_append]
  unfold convertKnoxIngress
  simp only []
  congr 1
  congr 1
  · -- ToPorts
    cases tps with
    | nil => rfl
    | cons p rest =>
      have halloc : addIngressPort https [] p
          = [{ Ports := [{ Port := p.Port, Protocol := goToUpper p.Protocol }]
               Rules := if https.length > 0 then [("http", httpSubRules https)]
                        else [] }] := by
        simp [addIngressPort, appendPortHead]
      simp only [List.foldl_cons, halloc, ingress_ports_foldl, List.isEmpty_cons,
        List.map_cons, List.singleton_append, if_false, Bool.false_eq_true]
  · -- FromCIDRs
    simp [foldl_cidr_append]
  · -- FromEntities
    simp [foldl_append_singleton]

-- ===================================================================== --
-- C8 — only name and namespace reach the platform metadata
-- ===================================================================== --

/-- A canonical policy whose metadata carries lifecycle bookkeeping. -/
def metaPolicyA : KnoxNetworkPolicy :=
  { Metadata := [("name", "n"), ("status", "latest"), ("rule", "toCIDRs")] }

/-- The same policy with different non-name/namespace metadata. -/
def metaPolicyB : KnoxNetworkPolicy :=
  { Metadata := [("name", "n"), ("status", "outdated"), ("type", "egress")] }

/-- C8: (1) two canonical policies that agree on their spec and on the
"name" and "namespace" metadata entries — and may differ on every other
metadata entry, such as "status", "rule" or "type" — synthesize to
identical platform policies; (2) the emitted platform metadata map
contains at most the keys "name" and "namespace". -/
theorem metadata_name_namespace_only :
    (∀ (services : List Service) (p1 p2 : KnoxNetworkPolicy),
        p1.Spec = p2.Spec →
        hasKey p1.Metadata "name" = hasKey p2.Metadata "name" →
        lookupStr p1.Metadata "name" = lookupStr p2.Metadata "name" →
        hasKey p1.Metadata "namespace" = hasKey p2.Metadata "namespace" →
        lookupStr p1.Metadata "namespace" = lookupStr p2.Metadata "namespace" →
        ConvertKnoxNetworkPolicyToCiliumPolicy services p1 =
          ConvertKnoxNetworkPolicyToCiliumPolicy services p2) ∧
    (∀ (services : List Service) (p : KnoxNetworkPolicy) (kv : String × String),
        kv ∈ (ConvertKnoxNetworkPolicyToCiliumPolicy services p).Metadata →
        kv.1 = "name" ∨ kv.1 = "namespace") := by
  constructor
  · intro services p1 p2 hspec hk1 hl1 hk2 hl2
    obtain ⟨m1, s1⟩ := p1
    obtain ⟨m2, s2⟩ := p2
    simp only at hspec hk1 hl1 hk2 hl2
    subst hspec
    unfold ConvertKnoxNetworkPolicyToCiliumPolicy buildNewCiliumNetworkPolicy
    simp only [hk1, hl1, hk2, hl2]
  · intro services p kv hmem
    have hmeta : (ConvertKnoxNetworkPolicyToCiliumPolicy services p).Metadata
        = (buildNewCiliumNetworkPolicy p).Metadata := by
      unfold ConvertKnoxNetworkPolicyToCiliumPolicy
      split <;> split <;> rfl
    rw [hmeta] at hmem
    unfold buildNewCiliumNetworkPolicy at hmem
    simp only at hmem
    rcases List.mem_append.mp hmem with h | h
    · left
      split at h
      · rw [List.mem_singleton.mp h]
      · cases h
    · right
      split at h
      · rw [List.mem_singleton.mp h]
      · cases h

/-- C8, witness for `metadata_name_namespace_only`: concrete policies
differing only in "status"/"rule"/"type" metadata synthesize identically,
and a concrete emitted metadata entry has one of the two allowed keys. -/
theorem metadata_name_namespace_only_witness :
    (ConvertKnoxNetworkPolicyToCiliumPolicy [] metaPolicyA =
      ConvertKnoxNetworkPolicyToCiliumPolicy [] metaPolicyB) ∧
    (("name", "n").1 = "name" ∨ ("name", "n").1 = "namespace") :=
  ⟨metadata_name_namespace_only.1 [] metaPolicyA metaPolicyB rfl rfl rfl rfl rfl,
   metadata_name_namespace_only.2 [] metaPolicyA ("name", "n") (by decide)⟩

-- ===================================================================== --
-- Evaluation lemmas about mkCidrPolicy, used by the C4/C5 theorems
-- ===================================================================== --

theorem mk_lookup_name (n st : String) (sel : StrMap) (cs : List String)
    (ps : List SpecPort) :
    lookupStr (mkCidrPolicy n st sel cs ps).Metadata "name" = n := by
  simp [mkCidrPolicy, lookupStr, List.find?]

theorem mk_lookup_type (n st : String) (sel : StrMap) (cs : List String)
    (ps : List SpecPort) :
    lookupStr (mkCidrPolicy n st sel cs ps).Metadata "type" = "egress" := by
  simp [mkCidrPolicy, lookupStr, List.find?]

theorem mk_lookup_rule (n st : String) (sel : StrMap) (cs : List String)
    (ps : List SpecPort) :
    lookupStr (mkCidrPolicy n st sel cs ps).Metadata "rule" = "toCIDRs" := by
  simp [mkCidrPolicy, lookupStr, List.find?]

theorem mk_lookup_status (n st : String) (sel : StrMap) (cs : List String)
    (ps : List SpecPort) :
    lookupStr (mkCidrPolicy n st sel cs ps).Metadata "status" = st := by
  simp [mkCidrPolicy, lookupStr, List.find?]

theorem mk_egress0 (n st : String) (sel : StrMap) (cs : List String)
    (ps : List SpecPort) :
    egress0 (mkCidrPolicy n st sel cs ps)
      = { ToCIDRs := [{ CIDRs := cs }], ToPorts := ps } := by
  simp [mkCidrPolicy, egress0]

theorem mk_cidrSelfIncluded (n st : String) (sel : StrMap) (c : String)
    (ps : List SpecPort) :
    cidrSelfIncluded (mkCidrPolicy n st sel [c] ps) = true := by
  simp [cidrSelfIncluded, egress0, mkCidrPolicy]

theorem mk_setStr_name (n st : String) (sel : StrMap) (cs : List String)
    (ps : List SpecPort) :
    setStr (mkCidrPolicy n st sel cs ps).Metadata "name" n
      = (mkCidrPolicy n st sel cs ps).Metadata := by
  simp [mkCidrPolicy, setStr, hasKey]

theorem mk_selector (n st : String) (sel : StrMap) (cs : List String)
    (ps : List SpecPort) :
    (mkCidrPolicy n st sel cs ps).Spec.Selector
      = { MatchLabels := some sel } := rfl

theorem setEgress0ToPorts_metadata (p : KnoxNetworkPolicy)
    (tps : List SpecPort) :
    (setEgress0ToPorts p tps).Metadata = p.Metadata := rfl

theorem hrule_cidr : strContainsSub "toCIDRs" "toCIDRs" = true := by decide

theorem hrule_fqdn : strContainsSub "toCIDRs" "toFQDNs" = false := by decide

-- ===================================================================== --
-- C4 — CIDR port-merge monotonicity
-- ===================================================================== --

/-- C4, counterexample: with a shared CIDR set of two distinct entries
(1.1.1.1/32, 2.2.2.2/32) the claimed merge never happens: the defective
CIDR-set check of `GetLatestCIDRs` (it compares the CIDR list of the
discovered policy with itself, so a list with two distinct entries is
never "included") finds no match, and reconciliation outputs the
discovered policy with ports {443/TCP} only — not {80/TCP, 443/TCP} — and
marks nothing outdated. -/
theorem cidr_merge_not_applied_on_multi_cidr_set :
    DeduplicatePolicies [] [multiCidrExisting] [multiCidrDiscovered] []
      = ([multiCidrDiscovered], []) := rfl

/-- C4, amended: restricted to single-CIDR rules (the source assumes one
CIDR per CIDR policy, src/core/deduplicator.go:251) and to a discovered
name distinct from the existing name: reconciling an existing "latest"
egress CIDR policy with ports {80/TCP} against a discovered policy with
the same selector, the same CIDR and ports {443/TCP} produces exactly one
output policy whose port list is [443/TCP, 80/TCP] (both ports, present
once each), and marks the existing policy outdated with a back-reference
to the name of the discovered policy. -/
theorem cidr_merge_single_cidr_updates_ports_and_marks (draws : List String)
    (ml : StrMap) (cidr nE nP : String)
    (hml : (ml.map Prod.fst).Nodup) (hname : nE ≠ nP) :
    DeduplicatePolicies draws
        [mkCidrPolicy nE "latest" ml [cidr] [{ Port := "80", Protocol := "tcp" }]]
        [mkCidrPolicy nP "latest" ml [cidr] [{ Port := "443", Protocol := "tcp" }]] []
      = ([setEgress0ToPorts
            (mkCidrPolicy nP "latest" ml [cidr] [{ Port := "443", Protocol := "tcp" }])
            [{ Port := "443", Protocol := "tcp" }, { Port := "80", Protocol := "tcp" }]],
         [(nE, nP)]) := by
  have hsel : selEq { MatchLabels := some ml } { MatchLabels := some ml } = true :=
    selEq_refl hml
  have hbne : (nE == nP) = false := beq_eq_false_iff_ne.mpr hname
  have h1 : IsExistedPolicy
      [mkCidrPolicy nE "latest" ml [cidr] [{ Port := "80", Protocol := "tcp" }]]
      (mkCidrPolicy nP "latest" ml [cidr] [{ Port := "443", Protocol := "tcp" }])
      = false := by
    simp [IsExistedPolicy, specEq, listEqBy, egressEq, mkCidrPolicy,
      show (([{ Port := "80", Protocol := "tcp" }] : List SpecPort)
        == [{ Port := "443", Protocol := "tcp" }]) = false from by decide]
  have h2 : GetLatestCIDRs
      [mkCidrPolicy nE "latest" ml [cidr] [{ Port := "80", Protocol := "tcp" }]]
      (mkCidrPolicy nP "latest" ml [cidr] [{ Port := "443", Protocol := "tcp" }])
      = some (mkCidrPolicy nE "latest" ml [cidr]
          [{ Port := "80", Protocol := "tcp" }]) := by
    unfold GetLatestCIDRs
    apply List.find?_cons_of_pos
    simp only [mk_selector, mk_lookup_type, mk_lookup_rule, mk_lookup_status,
      mk_cidrSelfIncluded, hrule_cidr, hsel, beq_self_eq_true, Bool.and_self,
      Bool.and_true, Bool.true_and]
  have h3 : UpdateCIDR
      (mkCidrPolicy nP "latest" ml [cidr] [{ Port := "443", Protocol := "tcp" }])
      [mkCidrPolicy nE "latest" ml [cidr] [{ Port := "80", Protocol := "tcp" }]]
      = (setEgress0ToPorts
           (mkCidrPolicy nP "latest" ml [cidr] [{ Port := "443", Protocol := "tcp" }])
           [{ Port := "443", Protocol := "tcp" }, { Port := "80", Protocol := "tcp" }],
         true, [(nE, nP)]) := by
    unfold UpdateCIDR
    rw [mk_lookup_type, if_pos rfl, h2]
    simp [mk_egress0, mk_lookup_name, containsElement,
      show (({ Port := "80", Protocol := "tcp" } : SpecPort)
          == { Port := "443", Protocol := "tcp" }) = false from by decide]
  have hnc : containsElement [nE] nP = false := by
    simp [containsElement, hbne]
  have hrn : ReplaceDuplcatedName draws
      [mkCidrPolicy nE "latest" ml [cidr] [{ Port := "80", Protocol := "tcp" }]]
      (setEgress0ToPorts
        (mkCidrPolicy nP "latest" ml [cidr] [{ Port := "443", Protocol := "tcp" }])
        [{ Port := "443", Protocol := "tcp" }, { Port := "80", Protocol := "tcp" }])
      = (setEgress0ToPorts
          (mkCidrPolicy nP "latest" ml [cidr] [{ Port := "443", Protocol := "tcp" }])
          [{ Port := "443", Protocol := "tcp" }, { Port := "80", Protocol := "tcp" }],
         draws) := by
    unfold ReplaceDuplcatedName
    simp only [List.foldl_cons, List.foldl_nil, List.nil_append, mk_lookup_name,
      setEgress0ToPorts_metadata]
    rw [replaceNameLoop_not_contained [nE] draws nP hnc]
    simp only [mk_setStr_name]
    rfl
  have hfq : getToFQDNsFromNewDiscoveredPolicies
      (mkCidrPolicy nE "latest" ml [cidr] [{ Port := "80", Protocol := "tcp" }])
      [setEgress0ToPorts
        (mkCidrPolicy nP "latest" ml [cidr] [{ Port := "443", Protocol := "tcp" }])
        [{ Port := "443", Protocol := "tcp" }, { Port := "80", Protocol := "tcp" }]]
      = [] := by
    simp [getToFQDNsFromNewDiscoveredPolicies, setEgress0ToPorts, mkCidrPolicy]
  have h4 : updateExistCIDRtoNewFQDN
      [mkCidrPolicy nE "latest" ml [cidr] [{ Port := "80", Protocol := "tcp" }]]
      [setEgress0ToPorts
        (mkCidrPolicy nP "latest" ml [cidr] [{ Port := "443", Protocol := "tcp" }])
        [{ Port := "443", Protocol := "tcp" }, { Port := "80", Protocol := "tcp" }]] []
      = ([setEgress0ToPorts
           (mkCidrPolicy nP "latest" ml [cidr] [{ Port := "443", Protocol := "tcp" }])
           [{ Port := "443", Protocol := "tcp" }, { Port := "80", Protocol := "tcp" }]],
         []) := by
    unfold updateExistCIDRtoNewFQDN
    simp only [List.foldl_cons, List.foldl_nil, mk_lookup_type, mk_lookup_rule,
      hrule_cidr, mk_egress0]
    rw [if_pos (by exact ⟨trivial, trivial⟩)]
    rw [hfq]
    simp [processCidrList, getDomainNameFromMap, existDomainNameInFQDN]
  unfold DeduplicatePolicies
  simp only [List.foldl_cons, List.foldl_nil, h1, Bool.false_eq_true, if_false,
    mk_lookup_rule, setEgress0ToPorts_metadata, hrule_cidr, hrule_fqdn, if_true, h3,
    Bool.true_eq_false, hrn, h4, List.nil_append, List.append_nil]

/-- C4, witness for `cidr_merge_single_cidr_updates_ports_and_marks` at a
concrete selector, CIDR and names. -/
theorem cidr_merge_single_cidr_updates_ports_and_marks_witness :
    DeduplicatePolicies []
        [mkCidrPolicy "autopol-egress-old" "latest" [("app", "a")] ["10.0.0.5/32"]
          [{ Port := "80", Protocol := "tcp" }]]
        [mkCidrPolicy "autopol-egress-new" "latest" [("app", "a")] ["10.0.0.5/32"]
          [{ Port := "443", Protocol := "tcp" }]] []
      = ([setEgress0ToPorts
            (mkCidrPolicy "autopol-egress-new" "latest" [("app", "a")] ["10.0.0.5/32"]
              [{ Port := "443", Protocol := "tcp" }])
            [{ Port := "443", Protocol := "tcp" }, { Port := "80", Protocol := "tcp" }]],
         [("autopol-egress-old", "autopol-egress-new")]) :=
  cidr_merge_single_cidr_updates_ports_and_marks [] [("app", "a")] "10.0.0.5/32"
    "autopol-egress-old" "autopol-egress-new" (by decide) (by decide)

-- ===================================================================== --
-- C5 — weaker-information rejection
-- ===================================================================== --

/-- C5, counterexample: with a shared CIDR set of two distinct entries the
claimed discard never happens: the defective CIDR-set check of
`GetLatestCIDRs` finds no match, so the discovered no-port policy is
treated as novel and DOES appear in the output of `DeduplicatePolicies`. -/
theorem weaker_discovered_policy_kept_on_multi_cidr_set :
    (DeduplicatePolicies [] [multiCidrExisting] [multiCidrDiscoveredNoPorts] []).1
      = [multiCidrDiscoveredNoPorts] := rfl

/-- C5, amended: restricted to single-CIDR rules (the source assumes one
CIDR per CIDR policy): reconciling an existing "latest" egress CIDR policy
with a nonempty port list against a discovered policy with the same
selector, the same CIDR and an empty port list discards the discovered
policy — the output of `DeduplicatePolicies` is empty. -/
theorem weaker_discovered_policy_discarded_single_cidr (draws : List String)
    (ml : StrMap) (cidr nE nP : String) (portsE : List SpecPort)
    (hml : (ml.map Prod.fst).Nodup) (hports : portsE ≠ []) :
    (DeduplicatePolicies draws
        [mkCidrPolicy nE "latest" ml [cidr] portsE]
        [mkCidrPolicy nP "latest" ml [cidr] []] []).1
      = [] := by
  have hsel : selEq { MatchLabels := some ml } { MatchLabels := some ml } = true :=
    selEq_refl hml
  have hbe : (portsE == ([] : List SpecPort)) = false := by
    cases portsE with
    | nil => exact absurd rfl hports
    | cons a l => rfl
  have hlen : 0 < portsE.length := List.length_pos.mpr hports
  have h1 : IsExistedPolicy [mkCidrPolicy nE "latest" ml [cidr] portsE]
      (mkCidrPolicy nP "latest" ml [cidr] []) = false := by
    simp [IsExistedPolicy, specEq, listEqBy, egressEq, mkCidrPolicy, hbe]
  have h2 : GetLatestCIDRs [mkCidrPolicy nE "latest" ml [cidr] portsE]
      (mkCidrPolicy nP "latest" ml [cidr] [])
      = some (mkCidrPolicy nE "latest" ml [cidr] portsE) := by
    unfold GetLatestCIDRs
    apply List.find?_cons_of_pos
    simp only [mk_selector, mk_lookup_type, mk_lookup_rule, mk_lookup_status,
      mk_cidrSelfIncluded, hrule_cidr, hsel, beq_self_eq_true, Bool.and_self,
      Bool.and_true, Bool.true_and]
  have h3 : UpdateCIDR (mkCidrPolicy nP "latest" ml [cidr] [])
      [mkCidrPolicy nE "latest" ml [cidr] portsE]
      = (mkCidrPolicy nP "latest" ml [cidr] [], false, []) := by
    unfold UpdateCIDR
    rw [mk_lookup_type, if_pos rfl, h2]
    simp only [mk_egress0, List.length_nil]
    rw [if_pos ⟨trivial, hlen⟩]
  have h4 : updateExistCIDRtoNewFQDN [mkCidrPolicy nE "latest" ml [cidr] portsE]
      [] [] = ([], []) := by
    unfold updateExistCIDRtoNewFQDN
    simp only [List.foldl_cons, List.foldl_nil, mk_lookup_type, mk_lookup_rule,
      hrule_cidr, mk_egress0]
    rw [if_pos (by exact ⟨trivial, trivial⟩)]
    simp [getToFQDNsFromNewDiscoveredPolicies, processCidrList,
      getDomainNameFromMap, existDomainNameInFQDN]
  unfold DeduplicatePolicies
  simp only [List.foldl_cons, List.foldl_nil, h1, Bool.false_eq_true, if_false,
    mk_lookup_rule, hrule_cidr, if_true, h3, h4, List.nil_append, List.append_nil]

/-- C5, witness for `weaker_discovered_policy_discarded_single_cidr` at a
concrete selector, CIDR, names and existing port list. -/
theorem weaker_discovered_policy_discarded_single_cidr_witness :
    (DeduplicatePolicies []
        [mkCidrPolicy "autopol-egress-old" "latest" [("app", "a")] ["10.0.0.5/32"]
          [{ Port := "80", Protocol := "tcp" }]]
        [mkCidrPolicy "autopol-egress-new" "latest" [("app", "a")] ["10.0.0.5/32"] []]
        []).1
      = [] :=
  weaker_discovered_policy_discarded_single_cidr [] [("app", "a")] "10.0.0.5/32"
    "autopol-egress-old" "autopol-egress-new" [{ Port := "80", Protocol := "tcp" }]
    (by decide) (by decide)

-- ===================================================================== --
-- C10 — nil-safety of the flow conversion
-- ===================================================================== --

/-- C10, counterexample: a flow whose `Source` sub-record is absent does
NOT yield a (log, ok) result: the conversion dereferences
`ciliumFlow.Source.Namespace` before any presence check
(src/plugin/cilium.go:179), which is an invalid access on the absent
sub-record (modelled as `Except.error`). -/
theorem convert_flow_nil_source_invalid_access :
    ConvertCiliumFlowToKnoxNetworkLog nilSourceFlow = Except.error () := rfl

theorem convertL7HTTPStep_ok_of_no_request (f : CiliumFlow)
    (h : hasHTTPRequest f = false) (log : KnoxNetworkLog) :
    ∃ p, convertL7HTTPStep f log = Except.ok p := by
  unfold convertL7HTTPStep
  rcases hl7 : f.L7 with _ | l7
  · exact ⟨_, rfl⟩
  · simp only []
    rcases hh : l7.Http with _ | http
    · exact ⟨_, rfl⟩
    · simp only []
      have htype : l7.«Type» ≠ 1 := by
        unfold hasHTTPRequest at h
        rw [hl7] at h
        simp only [] at h
        rw [hh] at h
        simpa using h
      have hget : getHTTP f = .ok ("", "") := by
        unfold getHTTP
        rw [hl7]
        simp only []
        rw [hh]
        simp only []
        rw [if_neg htype]
      rw [hget]
      exact ⟨_, rfl⟩

theorem convertL7Steps_ok_of_no_request (f : CiliumFlow)
    (h : hasHTTPRequest f = false) (log : KnoxNetworkLog) :
    ∃ r, convertL7Steps f log = Except.ok r := by
  obtain ⟨p, hstep⟩ := convertL7HTTPStep_ok_of_no_request f h log
  unfold convertL7Steps
  rw [hstep]
  simp only []
  rw [← apply_ite Except.ok]
  exact ⟨_, rfl⟩

/-- C10, amended: the conversion checks IP (L3) and L4 presence before the
L3/L4 field reads and discards such flows with ok=false, but it
dereferences `Source` and `Destination` unconditionally, it reads the IP
record during pod-name fallback — before the L3 presence check — whenever
a pod name is empty, and on an L7 HTTP *request* it reads the parsed URL
through the ignored `url.Parse` error (cilium.go:142-143), an invalid
access when parsing fails.  Hence, whenever `Source` and `Destination`
are present and the IP record is present or both pod names are nonempty:
a flow carrying no L7 HTTP request always yields a (log, ok) result, and
— HTTP request or not — an absent IP or an absent L4 is discarded via
ok=false (those returns precede the L7 stage). -/
theorem convert_flow_total_when_endpoints_present (f : CiliumFlow)
    (src dst : Endpoint)
    (hs : f.Source = some src) (hd : f.Destination = some dst)
    (hp : f.IP.isSome ∨ (src.PodName ≠ "" ∧ dst.PodName ≠ "")) :
    (hasHTTPRequest f = false →
      ∃ r, ConvertCiliumFlowToKnoxNetworkLog f = Except.ok r) ∧
    (f.IP = none → ∃ l, ConvertCiliumFlowToKnoxNetworkLog f = Except.ok (l, false)) ∧
    (f.L4 = none → ∃ l, ConvertCiliumFlowToKnoxNetworkLog f = Except.ok (l, false)) := by
  unfold ConvertCiliumFlowToKnoxNetworkLog
  by_cases hdrop : f.Verdict = Verdict_DROPPED ∧ f.DropReason = 181
  · rw [if_pos hdrop]
    exact ⟨fun _ => ⟨({}, false), rfl⟩, fun _ => ⟨{}, rfl⟩, fun _ => ⟨{}, rfl⟩⟩
  · rw [if_neg hdrop, hs, hd]
    simp only []
    rcases hip : f.IP with _ | ip
    · have hpods : src.PodName ≠ "" ∧ dst.PodName ≠ "" := by
        rcases hp with h | h
        · rw [hip] at h; cases h
        · exact h
      rw [if_neg hpods.1, if_neg hpods.2]
      exact ⟨fun _ => ⟨_, rfl⟩, fun _ => ⟨_, rfl⟩, fun _ => ⟨_, rfl⟩⟩
    · simp only []
      rw [← apply_ite Except.ok, ← apply_ite Except.ok]
      simp only []
      rcases hl4 : f.L4 with _ | l4
      · refine ⟨fun _ => ⟨_, rfl⟩, ?_, ?_⟩
        · intro h; simp at h
        · intro h; exact ⟨_, rfl⟩
      · simp only []
        refine ⟨?_, ?_, ?_⟩
        · intro hhttp
          exact convertL7Steps_ok_of_no_request f hhttp _
        · intro h; simp at h
        · intro h; simp at h

/-- C10, witness for `convert_flow_total_when_endpoints_present`: a flow
with both endpoints present (nonempty pod names), no L7 record and no IP
record yields a (log, ok) result, namely a discard via ok=false, rather
than an invalid access. -/
theorem convert_flow_total_when_endpoints_present_witness :
    (∃ r, ConvertCiliumFlowToKnoxNetworkLog noIPFlow = Except.ok r) ∧
    (∃ l, ConvertCiliumFlowToKnoxNetworkLog noIPFlow = Except.ok (l, false)) :=
  ⟨(convert_flow_total_when_endpoints_present noIPFlow
      { PodName := "pod-a" } { PodName := "pod-b" } rfl rfl
      (Or.inr ⟨by decide, by decide⟩)).1 rfl,
   (convert_flow_total_when_endpoints_present noIPFlow
      { PodName := "pod-a" } { PodName := "pod-b" } rfl rfl
      (Or.inr ⟨by decide, by decide⟩)).2.1 rfl⟩

end DiscoveryEngine
